import Mathlib

/-
Verification development for the AI-Gallery backend
(ingestion-and-tagging pipeline).

Shallow embedding of the code under backend/:
  - database.py          : relational schema (Album, Image, Tag, ImageTagLink)
  - services/ingest.py   : process_import (dedup, thumbnail, album, persist)
  - services/image_processor.py : calculate_file_hash, extract_metadata,
                                  generate_thumbnail
  - services/ai_engine.py       : analyze_image_text (OCR post-classifier)
  - workers/ai_processor.py     : run_ai_processing_task (batch worker)
  - routers/review.py           : get_review_items, review_tag

Modelling conventions:
  - SQL tables are Lean lists of records; an autoincrement primary key is an
    explicit counter in the DB state.
  - Python floats holding confidence scores are modelled as rationals; the
    literals 0.30 / 0.80 / 0.90 / 1.0 of the source are exact decimals, so
    the comparisons of the source are preserved exactly.
  - The SHA-256 digest of hashlib is modelled as an injective function of the
    byte content (the identity on the byte list); every claim below depends
    only on equal bytes giving equal digests, which any function satisfies.
  - Fallible filesystem and DB operations return Except; the try/except of
    the ingestion loop is the explicit match on that Except.
-/

set_option maxRecDepth 4000

/-! ## Schema declaration (database.py)

A transcription of the SQLModel Field declarations, one entry per column,
used to settle what uniqueness constraints the store itself declares. -/

structure FieldSpec where
  primary_key : Bool := false
  unique : Bool := false
  index : Bool := false
  foreign_key : Option String := none
deriving DecidableEq

/-- Columns of the image_tag_link table (database.py, class ImageTagLink):
composite primary key (image_id, tag_id). -/
def image_tag_link_table : List (String × FieldSpec) :=
  [("image_id", { primary_key := true, foreign_key := some "image.id" }),
   ("tag_id", { primary_key := true, foreign_key := some "tag.id" }),
   ("confidence", {}),
   ("source", {}),
   ("is_verified", {})]

/-- Columns of the user table (database.py, class User). -/
def user_table : List (String × FieldSpec) :=
  [("id", { primary_key := true }),
   ("email", { index := true, unique := true }),
   ("hashed_password", {}),
   ("full_name", {}),
   ("role", {}),
   ("is_active", {})]

/-- Columns of the album table (database.py, class Album):
slug is declared index=True, unique=True. -/
def album_table : List (String × FieldSpec) :=
  [("id", { primary_key := true }),
   ("name", {}),
   ("slug", { index := true, unique := true }),
   ("root_path", {}),
   ("created_at", {}),
   ("is_deleted", {}),
   ("owner_id", { foreign_key := some "user.id" })]

/-- Columns of the tag table (database.py, class Tag). -/
def tag_table : List (String × FieldSpec) :=
  [("id", { primary_key := true }),
   ("name", { index := true, unique := true }),
   ("category", {})]

/-- Columns of the image table (database.py, class Image).
Note that file_hash is declared Field(index=True) only. -/
def image_table : List (String × FieldSpec) :=
  [("id", { primary_key := true }),
   ("album_id", { foreign_key := some "album.id" }),
   ("owner_id", { foreign_key := some "user.id" }),
   ("filename", {}),
   ("path", {}),
   ("file_hash", { index := true }),
   ("captured_at", {}),
   ("width", {}),
   ("height", {}),
   ("file_size", {}),
   ("camera_model", {}),
   ("is_processed", {}),
   ("is_deleted", {}),
   ("created_at", {})]

/-- Declared specification of one column of a table, by name. -/
def columnSpec (t : List (String × FieldSpec)) (c : String) : Option FieldSpec :=
  (t.find? (fun q => q.1 == c)).map (fun q => q.2)

/-- Names of the primary-key columns of a table, in declaration order. -/
def pkColumns (t : List (String × FieldSpec)) : List String :=
  (t.filter (fun q => q.2.primary_key)).map (fun q => q.1)

/-- Whether the schema declares a single-column uniqueness constraint on a
column: either an explicit unique=True or the column being the sole primary
key. -/
def columnHasUniqueness (t : List (String × FieldSpec)) (c : String) : Bool :=
  (match columnSpec t c with
   | some s => s.unique
   | none => false) || (pkColumns t == [c])

/-! ## Relational state -/

/-- Row of the album table. -/
structure AlbumRec where
  id : Nat
  name : String
  slug : String
  root_path : String
  owner_id : Nat
  is_deleted : Bool := false
deriving DecidableEq

/-- Row of the image table. -/
structure ImageRec where
  id : Nat
  album_id : Nat
  owner_id : Option Nat := none
  filename : String := ""
  path : String := ""
  file_hash : List Nat := []
  captured_at : Option String := none
  width : Option Nat := none
  height : Option Nat := none
  file_size : Option Nat := none
  camera_model : Option String := none
  is_processed : Bool := false
  is_deleted : Bool := false
deriving DecidableEq

/-- Row of the tag table. -/
structure TagRec where
  id : Nat
  name : String
  category : String := "general"
deriving DecidableEq

/-- Row of the image_tag_link table. -/
structure TagLinkRec where
  image_id : Nat
  tag_id : Nat
  confidence : ℚ := 1
  source : String := "manual"
  is_verified : Bool := false
deriving DecidableEq

/-- The persistent store: one list per table plus the autoincrement
counters. -/
structure DB where
  albums : List AlbumRec := []
  images : List ImageRec := []
  tags : List TagRec := []
  links : List TagLinkRec := []
  nextAlbumId : Nat := 1
  nextImageId : Nat := 1
  nextTagId : Nat := 1
deriving DecidableEq

/-- Number of image rows carrying a given content fingerprint, soft-deleted
rows included. -/
def countHash (db : DB) (h : List Nat) : Nat :=
  db.images.countP (fun img => img.file_hash == h)

/-- All links of one image. -/
def linksOfImage (db : DB) (imageId : Nat) : List TagLinkRec :=
  db.links.filter (fun l => l.image_id == imageId)

/-- All links of one (image, tag) pair. -/
def pairLinks (db : DB) (imageId tagId : Nat) : List TagLinkRec :=
  db.links.filter (fun l => l.image_id == imageId && l.tag_id == tagId)

/-! ## Python string primitives

Models of the str methods the OCR post-classifier relies on, restricted to
the character sets the pipeline sees. -/

/-- Model of str.isdigit: nonempty and every character a decimal digit. -/
def pyIsDigit (s : String) : Bool :=
  !s.isEmpty && s.toList.all Char.isDigit

/-- Model of int() on an all-digit string. -/
def pyToNat (s : String) : Nat :=
  s.toList.foldl (fun n c => n * 10 + (c.toNat - 48)) 0

/-- Model of str.isupper: at least one cased character and no lowercase
character (for the ASCII range, cased characters are the letters). -/
def pyIsUpper (s : String) : Bool :=
  s.toList.any Char.isAlpha && s.toList.all (fun c => !c.isLower)

/-- Model of str.strip: whitespace removed from both ends. -/
def pyStrip (s : String) : String :=
  String.mk (((s.toList.dropWhile Char.isWhitespace).reverse.dropWhile
    Char.isWhitespace).reverse)

/-- Splitting a character list at every occurrence of a separator. -/
def splitChar (sep : Char) : List Char → List (List Char)
  | [] => [[]]
  | c :: cs =>
    if c == sep then [] :: splitChar sep cs
    else
      match splitChar sep cs with
      | [] => [[c]]
      | w :: ws => (c :: w) :: ws

/-- Joining character lists with a separator character. -/
def joinSep (sep : Char) : List (List Char) → List Char
  | [] => []
  | [w] => w
  | w :: ws => w ++ sep :: joinSep sep ws

/-- Model of the python-slugify dependency used by process_import: lowercase,
replace nonalphanumeric runs by single hyphens, drop edge hyphens. -/
def slugify (s : String) : String :=
  let cleaned := s.toList.map (fun c =>
    let lc := c.toLower
    if lc.isAlphanum then lc else ' ')
  String.mk (joinSep '-'
    ((splitChar ' ' cleaned).filter (fun w => !w.isEmpty)))

/-- Model of os.path.basename for slash-separated paths. -/
def basename (p : String) : String :=
  String.mk ((splitChar '/' p.toList).getLastD [])

/-- Model of os.path.dirname for slash-separated paths. -/
def dirname (p : String) : String :=
  String.mk (joinSep '/' (splitChar '/' p.toList).dropLast)

/-! ## services/image_processor.py -/

/-- One file visible to the ingestion pipeline. content = none models an
unreadable file (open raises); decodable models whether PIL can decode it;
the exif fields model the embedded metadata PIL would return. -/
structure FileEntry where
  path : String
  content : Option (List Nat) := some []
  decodable : Bool := true
  exif_width : Nat := 0
  exif_height : Nat := 0
  exif_captured_at : Option String := none
  exif_camera_model : Option String := none
deriving DecidableEq

/-- calculate_file_hash (image_processor.py): the SHA-256 digest of the byte
content, modelled as an injective function of the content. The chunked
reading of the source affects memory only, not the digest. -/
def calculate_file_hash (content : List Nat) : List Nat :=
  content

/-- Extracted technical metadata (image_processor.py, extract_metadata). -/
structure Metadata where
  width : Nat := 0
  height : Nat := 0
  captured_at : Option String := none
  camera_model : String := "Unknown"
  file_size : Nat := 0
deriving DecidableEq

/-- extract_metadata (image_processor.py): best-effort; a file PIL cannot
decode degrades to the defaults instead of failing. -/
def extract_metadata (f : FileEntry) (content : List Nat) : Metadata :=
  if f.decodable then
    { width := f.exif_width
      height := f.exif_height
      captured_at := f.exif_captured_at
      camera_model := f.exif_camera_model.getD "Unknown"
      file_size := content.length }
  else { file_size := content.length }

/-- generate_thumbnail (image_processor.py): returns true on success, false
on any failure (all exceptions are caught inside). -/
def generate_thumbnail (f : FileEntry) : Bool :=
  f.decodable

/-! ## services/ingest.py -/

/-- Aggregate counters returned by process_import. -/
structure Stats where
  added : Nat := 0
  skipped : Nat := 0
  errors : Nat := 0
deriving DecidableEq

/-- Exceptions the per-file try/except of process_import can observe. -/
inductive IngestErr where
  | ioError
  | uniqueViolation
deriving DecidableEq

/-- State threaded through the ingestion loop: the store, and the set of
thumbnail files on disk (keyed by fingerprint, as in the source naming
scheme fingerprint.jpg). -/
structure IngestState where
  db : DB
  thumbs : List (List Nat) := []
  stats : Stats := {}
deriving DecidableEq

/-- Album management block of process_import (ingest.py): look up the Album
by slug; if absent, create and commit it. The commit enforces the
unique=True constraint on slug. inter lists the albums committed by a
concurrent actor between the lookup and the commit (empty for a sequential
run); the source performs no re-check after a failed commit, so a
uniqueness failure escapes to the per-file handler. On failure the rows of
the concurrent actor remain in the store. -/
def resolveAlbum (db : DB) (inter : List AlbumRec) (parentDir : String)
    (ownerId : Nat) : Except (IngestErr × DB) (DB × Nat) :=
  let album_name := basename parentDir
  let album_slug := slugify album_name
  match db.albums.find? (fun a => a.slug == album_slug) with
  | some a => .ok (db, a.id)
  | none =>
    let committed := db.albums ++ inter
    if committed.any (fun a => a.slug == album_slug) then
      .error (.uniqueViolation, { db with albums := committed })
    else
      let album : AlbumRec :=
        { id := db.nextAlbumId, name := album_name, slug := album_slug
          root_path := parentDir, owner_id := ownerId }
      .ok ({ db with
             albums := committed ++ [album]
             nextAlbumId := db.nextAlbumId + 1 }, album.id)

/-- Body of the per-file loop of process_import (ingest.py lines 53-113):
hash, duplicate check, metadata, thumbnail, album, insert. The Bool of the
ok case is true for added, false for skipped. An error carries the store
and the thumbnail directory as the exception leaves them. -/
def ingestFile (ownerId : Nat) (db : DB) (thumbs : List (List Nat))
    (f : FileEntry) (inter : List AlbumRec) :
    Except (IngestErr × DB × List (List Nat))
      (DB × List (List Nat) × Bool) :=
  match f.content with
  | none => .error (.ioError, db, thumbs)
  | some content =>
    let file_hash := calculate_file_hash content
    match db.images.find? (fun img => img.file_hash == file_hash) with
    | some _ =>
      -- duplicate (soft-deleted or not: only the log line differs)
      .ok (db, thumbs, false)
    | none =>
      let metadata := extract_metadata f content
      let thumbs :=
        if thumbs.contains file_hash then thumbs
        else if generate_thumbnail f then file_hash :: thumbs else thumbs
      match resolveAlbum db inter (dirname f.path) ownerId with
      | .error (e, db) => .error (e, db, thumbs)
      | .ok (db, album_id) =>
        let new_image : ImageRec :=
          { id := db.nextImageId
            album_id := album_id
            owner_id := some ownerId
            filename := basename f.path
            path := f.path
            file_hash := file_hash
            captured_at := metadata.captured_at
            width := some metadata.width
            height := some metadata.height
            file_size := some metadata.file_size
            camera_model := some metadata.camera_model
            is_processed := false }
        .ok ({ db with
               images := db.images ++ [new_image]
               nextImageId := db.nextImageId + 1 }, thumbs, true)

/-- One iteration of the ingestion loop, with its try/except: each file
settles as exactly one of added, skipped, errors. -/
def ingestStep (ownerId : Nat) (st : IngestState)
    (f : FileEntry) (inter : List AlbumRec) : IngestState :=
  match ingestFile ownerId st.db st.thumbs f inter with
  | .ok (db, thumbs, true) =>
    { db := db, thumbs := thumbs
      stats := { st.stats with added := st.stats.added + 1 } }
  | .ok (db, thumbs, false) =>
    { db := db, thumbs := thumbs
      stats := { st.stats with skipped := st.stats.skipped + 1 } }
  | .error (_, db, thumbs) =>
    { db := db, thumbs := thumbs
      stats := { st.stats with errors := st.stats.errors + 1 } }

/-- The ingestion loop over the discovered files, each paired with the
interference its album commit may race against. -/
def ingestLoop (ownerId : Nat) :
    List (FileEntry × List AlbumRec) → IngestState → IngestState
  | [], st => st
  | (f, inter) :: rest, st =>
    ingestLoop ownerId rest (ingestStep ownerId st f inter)

/-- process_import (ingest.py): the discovery phase (zip pre-pass and
list_image_files) is modelled by supplying the discovered file list; the
per-file loop is the sequential run of ingestLoop with no interference. -/
def process_import (ownerId : Nat) (files : List FileEntry)
    (db : DB) (thumbs : List (List Nat)) : IngestState :=
  ingestLoop ownerId (files.map (fun f => (f, [])))
    { db := db, thumbs := thumbs }

/-! ## services/ai_engine.py -/

/-- One candidate tag produced by an analyzer (the dicts of ai_engine.py). -/
structure Candidate where
  name : String
  confidence : ℚ
  source : String
  category : String := "general"
deriving DecidableEq

/-- Post-classification of one recognized text fragment, the body of the
loop of analyze_image_text (ai_engine.py lines 145-160): an all-digit
fragment with value in 1..999 becomes a number candidate at the fixed
confidence 0.90; otherwise a fragment longer than 3 characters and
uppercase becomes a text candidate at the fixed confidence 0.80; anything
else is dropped. -/
def ocrClassify (text : String) : Option Candidate :=
  let clean_text := pyStrip text
  if pyIsDigit clean_text && decide (1 ≤ pyToNat clean_text)
      && decide (pyToNat clean_text ≤ 999) then
    some { name := clean_text, confidence := mkRat 9 10, source := "ai_ocr"
           category := "number" }
  else if decide (clean_text.length > 3) && pyIsUpper clean_text then
    some { name := clean_text, confidence := mkRat 8 10, source := "ai_ocr"
           category := "text" }
  else
    none

/-- analyze_image_text (ai_engine.py): the recognizer output for the image
is the texts list (detail=0 drops the recognizer scores); disabled OCR
returns no candidates; each fragment contributes via ocrClassify. -/
def analyze_image_text (ocr_enabled : Bool) (texts : List String) :
    List Candidate :=
  if !ocr_enabled then [] else texts.filterMap ocrClassify

/-! ## workers/ai_processor.py -/

/-- Find-or-create of a Tag by name (run_ai_processing_task): creating
commits immediately. -/
def findOrCreateTag (db : DB) (name category : String) : DB × TagRec :=
  match db.tags.find? (fun t => t.name == name) with
  | some t => (db, t)
  | none =>
    let t : TagRec := { id := db.nextTagId, name := name, category := category }
    ({ db with
       tags := db.tags ++ [t]
       nextTagId := db.nextTagId + 1 }, t)

/-- Persisting one candidate for one image (run_ai_processing_task):
find-or-create the Tag, then create the TagLink only when no link for the
(image, tag) pair exists yet. -/
def persistCandidate (db : DB) (imgId : Nat) (c : Candidate) : DB :=
  let found := findOrCreateTag db c.name c.category
  let db1 := found.1
  let tag := found.2
  match db1.links.find? (fun l => l.image_id == imgId && l.tag_id == tag.id) with
  | some _ => db1
  | none =>
    { db1 with
      links := db1.links ++
        [{ image_id := imgId, tag_id := tag.id, confidence := c.confidence
           source := c.source, is_verified := false }] }

/-- UPDATE image SET is_processed = true WHERE id = imgId. -/
def setProcessed (db : DB) (imgId : Nat) : DB :=
  { db with
    images := db.images.map (fun i =>
      if i.id == imgId then { i with is_processed := true } else i) }

/-- Handling of one (image, candidates) entry of a batch
(run_ai_processing_task): a worklist id no longer present in the store is
skipped; an empty candidate list still flips is_processed; otherwise all
candidates are persisted and then is_processed is flipped. -/
def saveOneImage (db : DB) (item : (Nat × String) × List Candidate) : DB :=
  let imgId := item.1.1
  match db.images.find? (fun i => i.id == imgId) with
  | none => db
  | some _ =>
    match item.2 with
    | [] => setProcessed db imgId
    | tags_data =>
      setProcessed (tags_data.foldl (fun d c => persistCandidate d imgId c) db)
        imgId

/-- Persist phase of one batch (the Save Results block of
run_ai_processing_task), over the worklist entries zipped with the analyzer
results. -/
def save_batch_results (db : DB)
    (items : List ((Nat × String) × List Candidate)) : DB :=
  items.foldl saveOneImage db

/-- Fixed-size chunking of the worklist (structural in a fuel argument so
that it evaluates by reduction). -/
def chunkAux (fuel : Nat) (n : Nat) (l : List ((Nat × String))) :
    List (List (Nat × String)) :=
  match fuel, l with
  | _, [] => []
  | 0, l => [l]
  | fuel + 1, x :: xs => (x :: xs.take (n - 1)) :: chunkAux fuel n (xs.drop (n - 1))

/-- worklist[i : i + BATCH_SIZE] slicing of run_ai_processing_task. -/
def chunkList (n : Nat) (l : List (Nat × String)) : List (List (Nat × String)) :=
  chunkAux l.length n l

/-- run_ai_processing_task (ai_processor.py): fetch the ids and paths of
all unprocessed images, process them in batches of 8; analyze is the
analyze_batch collaborator (classifier plus recognizer), returning one
candidate list per path or raising; a batch whose analysis or save raises
is logged and skipped, leaving its images unprocessed. A result list of the
wrong length would fault the indexing inside the try and aborts the batch
the same way. -/
def run_ai_processing_task
    (analyze : List String → Except Unit (List (List Candidate)))
    (db : DB) : DB :=
  let worklist := (db.images.filter (fun i => !i.is_processed)).map
    (fun i => (i.id, i.path))
  let batches := chunkList 8 worklist
  batches.foldl (fun d batch =>
    match analyze (batch.map (fun b => b.2)) with
    | .error _ => d
    | .ok rs =>
      if rs.length == batch.length then save_batch_results d (batch.zip rs)
      else d) db

/-! ## routers/review.py -/

/-- Response row of GET /review/items. -/
structure ReviewItem where
  image_id : Nat
  tag_id : Nat
  image_hash : List Nat
  tag_name : String
  confidence : ℚ
deriving DecidableEq

/-- The join-and-filter of get_review_items for one link row: inner joins
to its image and tag rows, then the where clauses is_verified = false,
confidence < 0.90, confidence > 0.30, image not soft-deleted. -/
def reviewRow (db : DB) (l : TagLinkRec) : Option ReviewItem :=
  match db.images.find? (fun i => i.id == l.image_id),
        db.tags.find? (fun t => t.id == l.tag_id) with
  | some i, some t =>
    if !l.is_verified && decide (l.confidence < mkRat 9 10)
        && decide (mkRat 3 10 < l.confidence) && !i.is_deleted then
      some { image_id := i.id, tag_id := t.id, image_hash := i.file_hash
             tag_name := t.name, confidence := l.confidence }
    else none
  | _, _ => none

/-- get_review_items (review.py): the filtered join rows, truncated by the
limit query parameter (default 20). -/
def get_review_items (db : DB) (limit : Nat) : List ReviewItem :=
  (db.links.filterMap (reviewRow db)).take limit

/-- Outcome of a POST endpoint: success, or an HTTPException carrying a
status code and detail. -/
inductive ApiResult where
  | success
  | httpError (code : Nat) (detail : String)
deriving DecidableEq

/-- review_tag (review.py): look up the link for the (image, tag) pair;
approve sets is_verified = true and confidence = 1.0 on that row; reject
deletes the row; any other action is a 400 with no state change; a missing
pair is a 404. The returned store is the store after the request. -/
def review_tag (db : DB) (image_id tag_id : Nat) (action : String) :
    DB × ApiResult :=
  match db.links.find? (fun l => l.image_id == image_id && l.tag_id == tag_id) with
  | none => (db, .httpError 404 "Tag link not found")
  | some _ =>
    if action == "approve" then
      ({ db with
         links := db.links.map (fun l =>
           if l.image_id == image_id && l.tag_id == tag_id then
             { l with is_verified := true, confidence := 1 }
           else l) }, .success)
    else if action == "reject" then
      ({ db with
         links := db.links.eraseP
           (fun l => l.image_id == image_id && l.tag_id == tag_id) }, .success)
    else
      (db, .httpError 400 "Invalid action. Use approve or reject.")

/-! ## General helper lemmas -/

/-- Induction principle for loop invariants over foldl, with the step
hypothesis available only for list members. -/
theorem foldl_inv_mem {α β : Type _} (P : β → Prop) (step : β → α → β) :
    ∀ (l : List α), (∀ b a, a ∈ l → P b → P (step b a)) →
      ∀ b, P b → P (l.foldl step b)
  | [], _, _, h => h
  | a :: tl, hs, b, h =>
    foldl_inv_mem P step tl (fun b2 a2 hm => hs b2 a2 (List.mem_cons_of_mem a hm))
      (step b a) (hs b a (List.mem_cons_self a tl) h)

/-! ## Claims C8 and C7 -/

/-- Claim C8, counterexample: the schema does not declare all three
uniqueness constraints; the fingerprint column file_hash of the image table
carries no uniqueness constraint (it is only indexed). -/
theorem c8_counterexample :
    ¬(columnHasUniqueness image_table "file_hash" = true ∧
      columnHasUniqueness album_table "slug" = true ∧
      pkColumns image_tag_link_table = ["image_id", "tag_id"]) := by
  decide

/-- Claim C8, amended: the persistent schema declares uniqueness on the
Album slug (unique=True) and on the (image, tag) pair of a TagLink (the
composite primary key), but the Image content fingerprint file_hash is
declared with a plain index and no uniqueness constraint, so duplicate
fingerprints are not rejected by the store itself; fingerprint
deduplication rests on the lookup inside process_import. -/
theorem c8_schema_amended :
    columnHasUniqueness album_table "slug" = true ∧
    pkColumns image_tag_link_table = ["image_id", "tag_id"] ∧
    columnHasUniqueness image_table "file_hash" = false ∧
    columnSpec image_table "file_hash" = some { index := true } := by
  decide

/-- Claim C7: each recognized text fragment is classified into exactly one
of two candidate shapes or dropped: an all-digit fragment whose value lies
in 1..999 yields a number candidate at the fixed confidence 0.90; otherwise
a fragment longer than 3 characters that is upper-case yields a text
candidate at the fixed confidence 0.80; all other fragments yield no
candidate; and the full analyzer output is the per-fragment classification
of each fragment, so the assigned confidences are the per-category
constants, never a recognizer score (which detail=0 discards before the
classifier runs). -/
theorem c7_ocr_classification (texts : List String) (text : String) :
    (analyze_image_text true texts = texts.filterMap ocrClassify) ∧
    ((pyIsDigit (pyStrip text) && decide (1 ≤ pyToNat (pyStrip text))
        && decide (pyToNat (pyStrip text) ≤ 999)) = true →
      ocrClassify text = some { name := (pyStrip text), confidence := mkRat 9 10
                                source := "ai_ocr", category := "number" }) ∧
    ((pyIsDigit (pyStrip text) && decide (1 ≤ pyToNat (pyStrip text))
        && decide (pyToNat (pyStrip text) ≤ 999)) = false →
      (decide ((pyStrip text).length > 3) && pyIsUpper (pyStrip text)) = true →
      ocrClassify text = some { name := (pyStrip text), confidence := mkRat 8 10
                                source := "ai_ocr", category := "text" }) ∧
    ((pyIsDigit (pyStrip text) && decide (1 ≤ pyToNat (pyStrip text))
        && decide (pyToNat (pyStrip text) ≤ 999)) = false →
      (decide ((pyStrip text).length > 3) && pyIsUpper (pyStrip text)) = false →
      ocrClassify text = none) := by
  refine ⟨by simp [analyze_image_text], ?_, ?_, ?_⟩
  · intro h
    simp [ocrClassify, h]
  · intro h1 h2
    simp [ocrClassify, h1, h2]
  · intro h1 h2
    simp [ocrClassify, h1, h2]

/-- Claim C7 witness: concrete fragments of each shape. -/
theorem c7_witness :
    ocrClassify " 42 " = some { name := "42", confidence := mkRat 9 10
                                source := "ai_ocr", category := "number" } ∧
    ocrClassify "HELLO" = some { name := "HELLO", confidence := mkRat 8 10
                                 source := "ai_ocr", category := "text" } ∧
    ocrClassify "1000" = none ∧
    ocrClassify "hi" = none ∧
    analyze_image_text true [" 42 ", "HELLO", "1000", "hi"] =
      [{ name := "42", confidence := mkRat 9 10, source := "ai_ocr"
         category := "number" },
       { name := "HELLO", confidence := mkRat 8 10, source := "ai_ocr"
         category := "text" }] :=
  ⟨(c7_ocr_classification [] " 42 ").2.1 (by decide),
   (c7_ocr_classification [] "HELLO").2.2.1 (by decide) (by decide),
   (c7_ocr_classification [] "1000").2.2.2 (by decide) (by decide),
   (c7_ocr_classification [] "hi").2.2.2 (by decide) (by decide),
   by decide⟩

/-! ## Claim C4 -/

/-- The (image_id, tag_id) primary key of a link row. -/
def pairKey (l : TagLinkRec) : Nat × Nat := (l.image_id, l.tag_id)

/-- Characterization of the join-and-filter row of get_review_items. -/
theorem reviewRow_eq_some_iff (db : DB) (l : TagLinkRec) (item : ReviewItem) :
    reviewRow db l = some item ↔
      ∃ i t, db.images.find? (fun x => x.id == l.image_id) = some i ∧
        db.tags.find? (fun x => x.id == l.tag_id) = some t ∧
        l.is_verified = false ∧ l.confidence < mkRat 9 10 ∧
        mkRat 3 10 < l.confidence ∧ i.is_deleted = false ∧
        item = { image_id := i.id, tag_id := t.id, image_hash := i.file_hash
                 tag_name := t.name, confidence := l.confidence } := by
  unfold reviewRow
  rcases hfi : db.images.find? (fun x => x.id == l.image_id) with _ | i <;>
    rcases hft : db.tags.find? (fun x => x.id == l.tag_id) with _ | t <;>
      simp [hfi, hft]
  by_cases hv : l.is_verified <;>
    by_cases hc1 : l.confidence < mkRat 9 10 <;>
      by_cases hc2 : mkRat 3 10 < l.confidence <;>
        by_cases hd : i.is_deleted <;>
          simp [hv, hc1, hc2, hd, eq_comm]

/-- A find? by key returns the member itself when keys are duplicate-free. -/
theorem find?_of_mem_nodup_key {α κ : Type _} [DecidableEq κ] (key : α → κ)
    (p : α → Bool) (a : α) (hp : ∀ x, p x = true ↔ key x = key a) :
    ∀ (xs : List α), (xs.map key).Nodup → a ∈ xs → xs.find? p = some a
  | [], _, hm => absurd hm (List.not_mem_nil a)
  | x :: tl, hnd, hm => by
    rcases List.mem_cons.mp hm with h | h
    · subst h
      rw [List.find?_cons_of_pos _ ((hp a).mpr rfl)]
    · have hne : p x = false := by
        rcases hhx : p x with _ | _
        · rfl
        · exfalso
          have hkey : key x = key a := (hp x).mp hhx
          have : key a ∈ tl.map key := List.mem_map_of_mem key h
          rw [List.map_cons] at hnd
          exact (List.nodup_cons.mp hnd).1 (hkey ▸ this)
      rw [List.find?_cons_of_neg _ (by simp [hne])]
      exact find?_of_mem_nodup_key key p a hp tl
        (by rw [List.map_cons] at hnd; exact (List.nodup_cons.mp hnd).2) h

/-- Claim C4, counterexample: the database below has two links that satisfy
the selection predicate (unverified, confidence 0.5, live image); with
limit 1 the query returns only the first, so the second qualifies yet is
not returned, contradicting the claimed equivalence. -/
def c4db : DB :=
  { images := [{ id := 1, album_id := 1 }]
    tags := [{ id := 1, name := "car" }, { id := 2, name := "dog" }]
    links := [{ image_id := 1, tag_id := 1, confidence := mkRat 1 2
                source := "ai_clip" },
              { image_id := 1, tag_id := 2, confidence := mkRat 1 2
                source := "ai_clip" }] }

/-- Claim C4, counterexample theorem: the (1, 2) link of c4db passes every
where clause of the selection, yet no returned item names it. -/
theorem c4_counterexample :
    (reviewRow c4db { image_id := 1, tag_id := 2, confidence := mkRat 1 2
                      source := "ai_clip" }).isSome = true ∧
    ({ image_id := 1, tag_id := 2, confidence := mkRat 1 2
       source := "ai_clip" } : TagLinkRec) ∈ c4db.links ∧
    ∀ item ∈ get_review_items c4db 1,
      ¬(item.image_id = 1 ∧ item.tag_id = 2) := by
  decide

/-- Claim C4, amended: when the result is not truncated by the limit
parameter (the filtered join has at most limit rows), a link is returned by
the review-queue selection iff it is unverified, its confidence lies
strictly between 0.30 and 0.90, and its image row exists and is not
soft-deleted (and its tag row exists, as the inner join requires); when the
limit cuts the result, a qualifying link beyond the cut is not returned.
In particular a 0.29 or 0.90 confidence link never appears and an
unverified 0.5 link on a live image appears whenever nothing is cut. -/
theorem c4_selection_amended (db : DB) (limit : Nat) (l : TagLinkRec)
    (hl : l ∈ db.links)
    (himg : (db.images.map (fun i => i.id)).Nodup)
    (hpair : (db.links.map pairKey).Nodup)
    (htrunc : (db.links.filterMap (reviewRow db)).length ≤ limit) :
    (∃ item ∈ get_review_items db limit,
        item.image_id = l.image_id ∧ item.tag_id = l.tag_id) ↔
      (l.is_verified = false ∧ mkRat 3 10 < l.confidence ∧
        l.confidence < mkRat 9 10 ∧
        (∃ i ∈ db.images, i.id = l.image_id ∧ i.is_deleted = false) ∧
        (∃ t ∈ db.tags, t.id = l.tag_id)) := by
  rw [get_review_items, List.take_of_length_le htrunc]
  constructor
  · rintro ⟨item, hitem, hid, htag⟩
    obtain ⟨l2, hl2, hrow⟩ := List.mem_filterMap.mp hitem
    obtain ⟨i, t, hfi, hft, hv, hc1, hc2, hd, hitemeq⟩ :=
      (reviewRow_eq_some_iff db l2 item).mp hrow
    have hiid : i.id = l2.image_id := by
      have := List.find?_some hfi
      simpa using this
    have htid : t.id = l2.tag_id := by
      have := List.find?_some hft
      simpa using this
    have hl2l : l2 = l := by
      apply List.inj_on_of_nodup_map hpair hl2 hl
      subst hitemeq
      simp only [pairKey] at *
      simp only [Prod.mk.injEq]
      constructor
      · rw [← hiid, hid]
      · rw [← htid, htag]
    subst hl2l
    refine ⟨hv, hc2, hc1, ⟨i, List.mem_of_find?_eq_some hfi, hiid, hd⟩,
      ⟨t, List.mem_of_find?_eq_some hft, htid⟩⟩
  · rintro ⟨hv, hc2, hc1, ⟨i, hi, hiid, hd⟩, ⟨t, ht, htid⟩⟩
    have hfi : db.images.find? (fun x => x.id == l.image_id) = some i := by
      have := find?_of_mem_nodup_key (fun x => x.id)
        (fun x => x.id == l.image_id) i (by simp [hiid]) db.images himg hi
      exact this
    have hft : (db.tags.find? (fun x => x.id == l.tag_id)).isSome := by
      rw [List.find?_isSome]
      exact ⟨t, ht, by simp [htid]⟩
    obtain ⟨t2, hft2⟩ := Option.isSome_iff_exists.mp hft
    have ht2id : t2.id = l.tag_id := by
      have := List.find?_some hft2
      simpa using this
    refine ⟨{ image_id := i.id, tag_id := t2.id, image_hash := i.file_hash
              tag_name := t2.name, confidence := l.confidence }, ?_, ?_, ?_⟩
    · exact List.mem_filterMap.mpr ⟨l, hl,
        (reviewRow_eq_some_iff db l _).mpr
          ⟨i, t2, hfi, hft2, hv, hc1, hc2, hd, rfl⟩⟩
    · exact hiid
    · exact ht2id

/-- Claim C4 witness for the amended theorem: on c4db with limit 2 nothing
is cut and the equivalence holds for the (1, 2) link; its right side is
checkable concretely. -/
theorem c4_witness :
    ∃ item ∈ get_review_items c4db 2,
      item.image_id = 1 ∧ item.tag_id = 2 :=
  (c4_selection_amended c4db 2
      { image_id := 1, tag_id := 2, confidence := mkRat 1 2
        source := "ai_clip" }
      (by decide) (by decide) (by decide) (by decide)).mpr
    (by
      refine ⟨rfl, by decide, by decide,
        ⟨{ id := 1, album_id := 1 }, by decide, rfl, rfl⟩,
        ⟨{ id := 2, name := "dog" }, by decide, rfl⟩⟩)

/-! ## Claim C5 -/

/-- Bridge between the boolean pair test of the queries and pairKey. -/
theorem pair_beq_iff (l : TagLinkRec) (i t : Nat) :
    ((l.image_id == i && l.tag_id == t) = true) ↔ pairKey l = (i, t) := by
  simp [pairKey, Prod.ext_iff]

/-- After deleting the found link of a pair, no link of that pair remains,
given the composite primary key (duplicate-free pairs). -/
theorem find?_eraseP_pair (i t : Nat) :
    ∀ (links : List TagLinkRec), (links.map pairKey).Nodup →
      (links.eraseP (fun x => x.image_id == i && x.tag_id == t)).find?
        (fun x => x.image_id == i && x.tag_id == t) = none
  | [], _ => rfl
  | x :: tl, hnd => by
    rcases hx : (x.image_id == i && x.tag_id == t) with _ | _
    · rw [List.eraseP_cons, hx]
      simp only [cond_false]
      rw [List.find?_cons_of_neg _ (by simp [hx])]
      exact find?_eraseP_pair i t tl
        (by rw [List.map_cons] at hnd; exact (List.nodup_cons.mp hnd).2)
    · rw [List.eraseP_cons, hx]
      simp only [cond_true]
      rw [List.find?_eq_none]
      intro y hy hpy
      have h1 : pairKey y = (i, t) := (pair_beq_iff y i t).mp hpy
      have h2 : pairKey x = (i, t) := (pair_beq_iff x i t).mp hx
      rw [List.map_cons] at hnd
      exact (List.nodup_cons.mp hnd).1
        (h2 ▸ h1 ▸ List.mem_map_of_mem pairKey hy)

/-- Claim C5: approve on an existing link answers success, keeps a link for
the pair, and every link of that pair ends verified with confidence 1.0;
reject answers success and (under the composite primary key) a subsequent
lookup of the pair finds nothing; any other action yields the 400
invalid-action error with the store unchanged; a missing pair yields the
404 error with the store unchanged. -/
theorem c5_review_actions (db : DB) (image_id tag_id : Nat) (a : String)
    (l : TagLinkRec) :
    (db.links.find?
        (fun x => x.image_id == image_id && x.tag_id == tag_id) = some l →
      ((review_tag db image_id tag_id "approve").2 = .success ∧
       (∃ x ∈ (review_tag db image_id tag_id "approve").1.links,
          x.image_id = image_id ∧ x.tag_id = tag_id) ∧
       (∀ x ∈ (review_tag db image_id tag_id "approve").1.links,
          x.image_id = image_id → x.tag_id = tag_id →
            x.is_verified = true ∧ x.confidence = 1))) ∧
    (db.links.find?
        (fun x => x.image_id == image_id && x.tag_id == tag_id) = some l →
      ((review_tag db image_id tag_id "reject").2 = .success ∧
       ((db.links.map pairKey).Nodup →
         (review_tag db image_id tag_id "reject").1.links.find?
           (fun x => x.image_id == image_id && x.tag_id == tag_id) = none))) ∧
    (db.links.find?
        (fun x => x.image_id == image_id && x.tag_id == tag_id) = some l →
      a ≠ "approve" → a ≠ "reject" →
      review_tag db image_id tag_id a =
        (db, .httpError 400 "Invalid action. Use approve or reject.")) ∧
    (db.links.find?
        (fun x => x.image_id == image_id && x.tag_id == tag_id) = none →
      review_tag db image_id tag_id a = (db, .httpError 404 "Tag link not found")) := by
  refine ⟨?_, ?_, ?_, ?_⟩
  · intro h
    have hpl := List.find?_some h
    have hmem := List.mem_of_find?_eq_some h
    simp only [Bool.and_eq_true, beq_iff_eq] at hpl
    obtain ⟨hli, hlt⟩ := hpl
    refine ⟨by simp [review_tag, h], ?_, ?_⟩
    · simp only [review_tag, h]
      refine ⟨{ l with is_verified := true, confidence := 1 }, ?_, by simp [hli], by simp [hlt]⟩
      have hx : (fun y : TagLinkRec =>
          if y.image_id == image_id && y.tag_id == tag_id then
            { y with is_verified := true, confidence := 1 }
          else y) l = { l with is_verified := true, confidence := 1 } := by
        simp [hli, hlt]
      simp only [beq_self_eq_true, Bool.and_self, if_true]
      rw [← hx]
      exact List.mem_map_of_mem _ hmem
    · simp only [review_tag, h, beq_self_eq_true, Bool.and_self, if_true]
      intro x hx hxi hxt
      obtain ⟨y, hy, rfl⟩ := List.mem_map.mp hx
      by_cases hc : (y.image_id == image_id && y.tag_id == tag_id) = true
      · simp [hc]
      · simp only [hc, if_neg, Bool.false_eq_true, not_false_eq_true,
          if_false] at hxi hxt ⊢
        exact absurd (by simp [hxi, hxt]) hc
  · intro h
    refine ⟨by simp [review_tag, h], ?_⟩
    intro hnd
    simp only [review_tag, h]
    have hne : (("reject" : String) == "approve") = false := by decide
    simp only [hne, Bool.false_eq_true, if_false, beq_self_eq_true, if_true]
    exact find?_eraseP_pair image_id tag_id db.links hnd
  · intro h h1 h2
    have hb1 : (a == "approve") = false := by simp [h1]
    have hb2 : (a == "reject") = false := by simp [h2]
    simp [review_tag, h, hb1, hb2]
  · intro h
    simp [review_tag, h]

/-- Concrete store for the review-action witness. -/
def c5db : DB :=
  { images := [{ id := 1, album_id := 1 }]
    tags := [{ id := 1, name := "car" }]
    links := [{ image_id := 1, tag_id := 1, confidence := mkRat 1 2
                source := "ai_clip" }] }

/-- The single link of c5db. -/
def c5link : TagLinkRec :=
  { image_id := 1, tag_id := 1, confidence := mkRat 1 2, source := "ai_clip" }

/-- Claim C5 witness: the four outcomes at a concrete store. -/
theorem c5_witness :
    (review_tag c5db 1 1 "approve").2 = ApiResult.success ∧
    (∃ x ∈ (review_tag c5db 1 1 "approve").1.links,
       x.image_id = 1 ∧ x.tag_id = 1) ∧
    (∀ x ∈ (review_tag c5db 1 1 "approve").1.links,
       x.image_id = 1 → x.tag_id = 1 →
         x.is_verified = true ∧ x.confidence = 1) ∧
    (review_tag c5db 1 1 "reject").2 = ApiResult.success ∧
    (review_tag c5db 1 1 "reject").1.links.find?
      (fun x => x.image_id == 1 && x.tag_id == 1) = none ∧
    review_tag c5db 1 1 "delete" =
      (c5db, ApiResult.httpError 400 "Invalid action. Use approve or reject.") ∧
    review_tag c5db 2 2 "approve" =
      (c5db, ApiResult.httpError 404 "Tag link not found") := by
  have h1 := (c5_review_actions c5db 1 1 "delete" c5link).1 (by decide)
  have h2 := (c5_review_actions c5db 1 1 "delete" c5link).2.1 (by decide)
  have h3 := (c5_review_actions c5db 1 1 "delete" c5link).2.2.1 (by decide)
    (by decide) (by decide)
  have h4 := (c5_review_actions c5db 2 2 "approve" c5link).2.2.2 (by decide)
  exact ⟨h1.1, h1.2.1, h1.2.2, h2.1, h2.2 (by decide), h3, h4⟩

/-! ## Persist-phase lemmas (workers/ai_processor.py) -/

/-- Find-or-create of a Tag never touches the links table. -/
theorem findOrCreateTag_links (db : DB) (n cat : String) :
    ((findOrCreateTag db n cat).1).links = db.links := by
  unfold findOrCreateTag
  rcases hf : db.tags.find? (fun t => t.name == n) with _ | t <;> simp [hf]

/-- Find-or-create of a Tag never touches the images table. -/
theorem findOrCreateTag_images (db : DB) (n cat : String) :
    ((findOrCreateTag db n cat).1).images = db.images := by
  unfold findOrCreateTag
  rcases hf : db.tags.find? (fun t => t.name == n) with _ | t <;> simp [hf]

/-- Persisting one candidate never touches the images table. -/
theorem persistCandidate_images (db : DB) (imgId : Nat) (c : Candidate) :
    (persistCandidate db imgId c).images = db.images := by
  unfold persistCandidate
  have himg := findOrCreateTag_images db c.name c.category
  rcases hf : findOrCreateTag db c.name c.category with ⟨db1, tag⟩
  rw [hf] at himg
  have himg2 : db1.images = db.images := himg
  rcases hfind : db1.links.find?
      (fun l => l.image_id == imgId && l.tag_id == tag.id) with _ | x <;>
    simp [hfind, himg2]

/-- Persisting one candidate either leaves the links table unchanged or
appends exactly one link, for the processed image, carrying the candidate
confidence and source, unverified, and only when the pair had no link. -/
theorem persistCandidate_links_cases (db : DB) (imgId : Nat) (c : Candidate) :
    (persistCandidate db imgId c).links = db.links ∨
    ∃ tagId, (persistCandidate db imgId c).links =
        db.links ++ [{ image_id := imgId, tag_id := tagId
                       confidence := c.confidence, source := c.source
                       is_verified := false }] ∧
      db.links.find?
        (fun l => l.image_id == imgId && l.tag_id == tagId) = none := by
  unfold persistCandidate
  have hlk := findOrCreateTag_links db c.name c.category
  rcases hf : findOrCreateTag db c.name c.category with ⟨db1, tag⟩
  rw [hf] at hlk
  have hlk2 : db1.links = db.links := hlk
  simp only [hf]
  rw [hlk2]
  rcases hfind : db.links.find?
      (fun l => l.image_id == imgId && l.tag_id == tag.id) with _ | x
  · right
    refine ⟨tag.id, ?_, hfind⟩
    simp [hfind]
  · left
    simp [hfind, hlk2]

/-! ## Claim C10 -/

/-- Claim C10: OCR number candidates carry exactly the fixed confidence
0.90 and OCR text candidates exactly 0.80; a link the worker creates from a
candidate carries the candidate confidence and is unverified; a link with
confidence 0.90 fails the strict upper bound of the review selection, so it
never yields a review row; and an unverified link with confidence 0.80
whose image exists and is live yields a review row (its tag joined). -/
theorem c10_ocr_review_gating (text : String) (c : Candidate) (db : DB)
    (imgId : Nat) (l nl : TagLinkRec) :
    (ocrClassify text = some c → c.category = "number" →
      c.confidence = mkRat 9 10) ∧
    (ocrClassify text = some c → c.category = "text" →
      c.confidence = mkRat 8 10) ∧
    (nl ∈ (persistCandidate db imgId c).links → nl ∉ db.links →
      nl.confidence = c.confidence ∧ nl.is_verified = false) ∧
    (l.confidence = mkRat 9 10 → reviewRow db l = none) ∧
    (l.confidence = mkRat 8 10 → l.is_verified = false →
      (∃ i, db.images.find? (fun x => x.id == l.image_id) = some i ∧
        i.is_deleted = false) →
      (db.tags.find? (fun x => x.id == l.tag_id)).isSome = true →
      (reviewRow db l).isSome = true) := by
  refine ⟨?_, ?_, ?_, ?_, ?_⟩
  · intro h hcat
    simp only [ocrClassify] at h
    split_ifs at h
    · cases Option.some.inj h
      rfl
    · cases Option.some.inj h
      simp at hcat
  · intro h hcat
    simp only [ocrClassify] at h
    split_ifs at h
    · cases Option.some.inj h
      simp at hcat
    · cases Option.some.inj h
      rfl
  · intro hmem hnot
    rcases persistCandidate_links_cases db imgId c with hsame | ⟨tid, heq, -⟩
    · rw [hsame] at hmem
      exact absurd hmem hnot
    · rw [heq] at hmem
      rcases List.mem_append.mp hmem with h | h
      · exact absurd h hnot
      · rcases List.mem_singleton.mp h with rfl
        exact ⟨rfl, rfl⟩
  · intro hc
    unfold reviewRow
    have hlt : decide (l.confidence < mkRat 9 10) = false := by
      rw [hc]; decide
    rcases hfi : db.images.find? (fun x => x.id == l.image_id) with _ | i <;>
      rcases hft : db.tags.find? (fun x => x.id == l.tag_id) with _ | t <;>
        simp [hfi, hft, hlt]
  · rintro hc hv ⟨i, hfi, hd⟩ hft
    obtain ⟨t, hft2⟩ := Option.isSome_iff_exists.mp hft
    have h1 : decide (l.confidence < mkRat 9 10) = true := by
      rw [hc]; decide
    have h2 : decide (mkRat 3 10 < l.confidence) = true := by
      rw [hc]; decide
    unfold reviewRow
    simp [hfi, hft2, hv, hd, h1, h2]

/-- The number candidate the OCR classifier produces for the fragment 42. -/
def c10cand : Candidate :=
  { name := "42", confidence := mkRat 9 10, source := "ai_ocr"
    category := "number" }

/-- The link the worker persists from c10cand for image 1 (OCR number). -/
def c10link9 : TagLinkRec :=
  { image_id := 1, tag_id := 1, confidence := mkRat 9 10, source := "ai_ocr" }

/-- An unverified OCR text link at the fixed confidence 0.80. -/
def c10link8 : TagLinkRec :=
  { image_id := 1, tag_id := 2, confidence := mkRat 8 10, source := "ai_ocr" }

/-- Concrete store for the OCR-gating witness: one live image, the two tags
an OCR pass would produce, and the two links the worker would create from a
number candidate (0.90) and a text candidate (0.80). -/
def c10db : DB :=
  { images := [{ id := 1, album_id := 1 }]
    tags := [{ id := 1, name := "42", category := "number" },
             { id := 2, name := "FINISH", category := "text" }]
    links := [c10link9, c10link8] }

/-- Claim C10 witness: the number fragment 42 yields confidence 0.90, the
link created from it carries that confidence unverified, the 0.90 link of
c10db yields no review row while the 0.80 text link yields one. -/
theorem c10_witness :
    c10cand.confidence = mkRat 9 10 ∧
    c10link9.confidence = c10cand.confidence ∧
    c10link9.is_verified = false ∧
    reviewRow c10db c10link9 = none ∧
    (reviewRow c10db c10link8).isSome = true := by
  have hnum := (c10_ocr_review_gating "42" c10cand {} 1 c10link9 c10link9).1
    (by decide) rfl
  have hlink := (c10_ocr_review_gating "42" c10cand {} 1 c10link9
    c10link9).2.2.1 (by decide) (by decide)
  have hnone := (c10_ocr_review_gating "42" c10cand c10db 1 c10link9
    c10link9).2.2.2.1 rfl
  have hsome := (c10_ocr_review_gating "42" c10cand c10db 1 c10link8
    c10link8).2.2.2.2 rfl rfl
    ⟨{ id := 1, album_id := 1 }, by decide, rfl⟩ (by decide)
  exact ⟨hnum, hlink.1, hlink.2, hnone, hsome⟩

/-! ## Ingestion lemmas (services/ingest.py) -/

/-- No image row carries the fingerprint iff the duplicate lookup misses. -/
theorem countHash_eq_zero_iff (db : DB) (h : List Nat) :
    countHash db h = 0 ↔
      db.images.find? (fun img => img.file_hash == h) = none := by
  rw [countHash, List.countP_eq_zero, List.find?_eq_none]

/-- Some image row carries the fingerprint iff the duplicate lookup hits. -/
theorem countHash_pos_iff (db : DB) (h : List Nat) :
    0 < countHash db h ↔
      (db.images.find? (fun img => img.file_hash == h)).isSome := by
  rw [countHash, List.countP_pos_iff, List.find?_isSome]

/-- Without interference, album resolution always succeeds (the lookup and
the uniqueness check read the same store). -/
theorem resolveAlbum_no_inter_ok (db : DB) (pd : String) (o : Nat) :
    ∃ db2 aid, resolveAlbum db [] pd o = .ok (db2, aid) := by
  simp only [resolveAlbum]
  rcases hf : db.albums.find? (fun a => a.slug == slugify (basename pd)) with _ | a
  · have hany : (db.albums ++ ([] : List AlbumRec)).any
        (fun a => a.slug == slugify (basename pd)) = false := by
      rw [List.append_nil, List.any_eq_false]
      exact fun x hx => List.find?_eq_none.mp hf x hx
    simp only [hf, hany, Bool.false_eq_true, if_false]
    exact ⟨_, _, rfl⟩
  · simp only [hf]
    exact ⟨_, _, rfl⟩

/-- Album resolution never touches the images table or its counter. -/
theorem resolveAlbum_ok_images {db db2 : DB} {inter : List AlbumRec}
    {pd : String} {o aid : Nat}
    (h : resolveAlbum db inter pd o = .ok (db2, aid)) :
    db2.images = db.images ∧ db2.nextImageId = db.nextImageId := by
  simp only [resolveAlbum] at h
  rcases hf : db.albums.find? (fun a => a.slug == slugify (basename pd)) with _ | a <;>
    rw [hf] at h
  · by_cases hany : ((db.albums ++ inter).any
        (fun a => a.slug == slugify (basename pd))) = true
    · simp [hany] at h
    · simp only [Bool.not_eq_true] at hany
      simp only [hany, Bool.false_eq_true, if_false, Except.ok.injEq,
        Prod.mk.injEq] at h
      obtain ⟨hdb, -⟩ := h
      subst hdb
      exact ⟨rfl, rfl⟩
  · simp only [Except.ok.injEq, Prod.mk.injEq] at h
    obtain ⟨hdb, -⟩ := h
    subst hdb
    exact ⟨rfl, rfl⟩

/-- A file whose fingerprint already has an image row is skipped, leaving
the store and the thumbnail directory unchanged. -/
theorem ingestFile_skip (o : Nat) (db : DB) (th : List (List Nat))
    (f : FileEntry) (inter : List AlbumRec) (c : List Nat) (x : ImageRec)
    (hc : f.content = some c)
    (hx : db.images.find?
      (fun img => img.file_hash == calculate_file_hash c) = some x) :
    ingestFile o db th f inter = .ok (db, th, false) := by
  simp [ingestFile, hc, hx]

/-- A readable file with a fresh fingerprint is added: the run succeeds and
appends exactly one image row carrying that fingerprint. -/
theorem ingestFile_add (o : Nat) (db : DB) (th : List (List Nat))
    (f : FileEntry) (c : List Nat) (hc : f.content = some c)
    (hn : db.images.find?
      (fun img => img.file_hash == calculate_file_hash c) = none) :
    ∃ db2 th2, ingestFile o db th f [] = .ok (db2, th2, true) ∧
      countHash db2 (calculate_file_hash c) =
        countHash db (calculate_file_hash c) + 1 := by
  obtain ⟨dbA, aid, hr⟩ := resolveAlbum_no_inter_ok db (dirname f.path) o
  obtain ⟨him, -⟩ := resolveAlbum_ok_images hr
  simp only [ingestFile, hc, hn, hr]
  refine ⟨_, _, rfl, ?_⟩
  simp [countHash, him, List.countP_append, List.countP_cons]

/-! ## Claim C1 -/

/-- Claim C1: for two files with identical byte content (hence identical
fingerprints), a process_import run over both persists exactly one image
row for that fingerprint when none existed, counting one added and one
skipped; and when a row with that fingerprint already exists (soft-deleted
or not -- the count ignores the deleted flag), both files are skipped and
no row is added. -/
theorem c1_duplicate_content (o : Nat) (db : DB) (th : List (List Nat))
    (f1 f2 : FileEntry) (c : List Nat)
    (h1 : f1.content = some c) (h2 : f2.content = some c) :
    (countHash db (calculate_file_hash c) = 0 →
      countHash (process_import o [f1, f2] db th).db (calculate_file_hash c) = 1 ∧
      (process_import o [f1, f2] db th).stats =
        { added := 1, skipped := 1, errors := 0 }) ∧
    (0 < countHash db (calculate_file_hash c) →
      countHash (process_import o [f1, f2] db th).db (calculate_file_hash c) =
        countHash db (calculate_file_hash c) ∧
      (process_import o [f1, f2] db th).stats =
        { added := 0, skipped := 2, errors := 0 }) := by
  constructor
  · intro h0
    have hn := (countHash_eq_zero_iff db _).mp h0
    obtain ⟨db2, th2, hrun, hcnt⟩ := ingestFile_add o db th f1 c h1 hn
    rw [h0] at hcnt
    have hpos : 0 < countHash db2 (calculate_file_hash c) := by omega
    obtain ⟨x, hx⟩ :=
      Option.isSome_iff_exists.mp ((countHash_pos_iff db2 _).mp hpos)
    have hskip := ingestFile_skip o db2 th2 f2 [] c x h2 hx
    have hflow : process_import o [f1, f2] db th =
        { db := db2, thumbs := th2
          stats := { added := 1, skipped := 1, errors := 0 } } := by
      simp [process_import, ingestLoop, ingestStep, hrun, hskip]
    rw [hflow]
    exact ⟨hcnt, rfl⟩
  · intro hpos
    obtain ⟨x, hx⟩ :=
      Option.isSome_iff_exists.mp ((countHash_pos_iff db _).mp hpos)
    have hs1 := ingestFile_skip o db th f1 [] c x h1 hx
    have hs2 := ingestFile_skip o db th f2 [] c x h2 hx
    have hflow : process_import o [f1, f2] db th =
        { db := db, thumbs := th
          stats := { added := 0, skipped := 2, errors := 0 } } := by
      simp [process_import, ingestLoop, ingestStep, hs1, hs2]
    rw [hflow]
    exact ⟨rfl, rfl⟩

/-- Two distinct files with the same byte content. -/
def c1fileA : FileEntry := { path := "root/race/a.jpg", content := some [7, 7] }

/-- Second file, different name and directory, same bytes. -/
def c1fileB : FileEntry := { path := "root/pit/b.jpg", content := some [7, 7] }

/-- A store already holding a soft-deleted image with the fingerprint. -/
def c1dbDeleted : DB :=
  { albums := [{ id := 1, name := "race", slug := "race"
                 root_path := "root/race", owner_id := 1 }]
    images := [{ id := 1, album_id := 1, file_hash := [7, 7]
                 is_deleted := true }] }

/-- Claim C1 witness: on an empty store the pair of identical files yields
one row and stats added 1 / skipped 1; on a store whose only row with that
fingerprint is soft-deleted, both are skipped and nothing is added. -/
theorem c1_witness :
    countHash (process_import 1 [c1fileA, c1fileB] {} []).db
      (calculate_file_hash [7, 7]) = 1 ∧
    (process_import 1 [c1fileA, c1fileB] {} []).stats =
      { added := 1, skipped := 1, errors := 0 } ∧
    countHash (process_import 1 [c1fileA, c1fileB] c1dbDeleted []).db
      (calculate_file_hash [7, 7]) = 1 ∧
    (process_import 1 [c1fileA, c1fileB] c1dbDeleted []).stats =
      { added := 0, skipped := 2, errors := 0 } := by
  have hfresh := (c1_duplicate_content 1 {} [] c1fileA c1fileB [7, 7]
    rfl rfl).1 (by decide)
  have hdup := (c1_duplicate_content 1 c1dbDeleted [] c1fileA c1fileB [7, 7]
    rfl rfl).2 (by decide)
  exact ⟨hfresh.1, hfresh.2, by rw [hdup.1]; decide, hdup.2⟩

/-! ## Claim C2 -/

/-- One loop iteration settles exactly one file into exactly one of the
three counters. -/
theorem ingestStep_total (o : Nat) (st : IngestState) (f : FileEntry)
    (inter : List AlbumRec) :
    (ingestStep o st f inter).stats.added +
      (ingestStep o st f inter).stats.skipped +
      (ingestStep o st f inter).stats.errors =
    st.stats.added + st.stats.skipped + st.stats.errors + 1 := by
  unfold ingestStep
  rcases h : ingestFile o st.db st.thumbs f inter with x | x
  · rcases x with ⟨e, db2, th2⟩
    simp
    omega
  · rcases x with ⟨db2, th2, b⟩
    rcases b with _ | _ <;> simp <;> omega

/-- The loop settles every file into exactly one counter. -/
theorem ingestLoop_total (o : Nat) :
    ∀ (items : List (FileEntry × List AlbumRec)) (st : IngestState),
      (ingestLoop o items st).stats.added +
        (ingestLoop o items st).stats.skipped +
        (ingestLoop o items st).stats.errors =
      st.stats.added + st.stats.skipped + st.stats.errors + items.length
  | [], st => by simp [ingestLoop]
  | (f, inter) :: rest, st => by
    have hrec := ingestLoop_total o rest (ingestStep o st f inter)
    have hone := ingestStep_total o st f inter
    simp only [ingestLoop] at *
    rw [hrec, hone]
    simp
    omega

/-- Claim C2: process_import always returns aggregate counts with
added + skipped + errors equal to the number of discovered paths, and a
per-file exception (here: an unreadable file, whose open raises before any
store access) settles that file as one more error and hands the loop on to
the remaining files against the store state the exception left behind. -/
theorem c2_failure_isolation (o : Nat) (files : List FileEntry) (db : DB)
    (th : List (List Nat)) (st : IngestState) (f : FileEntry)
    (inter : List AlbumRec) (rest : List (FileEntry × List AlbumRec))
    (e : IngestErr) (db2 : DB) (th2 : List (List Nat)) :
    ((process_import o files db th).stats.added +
      (process_import o files db th).stats.skipped +
      (process_import o files db th).stats.errors = files.length) ∧
    (ingestFile o st.db st.thumbs f inter = .error (e, db2, th2) →
      ingestLoop o ((f, inter) :: rest) st =
        ingestLoop o rest
          { db := db2, thumbs := th2
            stats := { st.stats with errors := st.stats.errors + 1 } }) := by
  constructor
  · have := ingestLoop_total o (files.map (fun f => (f, []))) { db := db, thumbs := th }
    simpa [process_import] using this
  · intro h
    simp [ingestLoop, ingestStep, h]

/-- An unreadable file (open raises OSError). -/
def c2bad : FileEntry := { path := "root/race/broken.jpg", content := none }

/-- Claim C2 witness: a batch of one good file, one unreadable file and a
duplicate of the good one returns counts 1 / 1 / 1 summing to 3, and the
loop continues past the unreadable file with only the error counter
changed. -/
theorem c2_witness :
    ((process_import 1 [c1fileA, c2bad, c1fileB] {} []).stats.added +
      (process_import 1 [c1fileA, c2bad, c1fileB] {} []).stats.skipped +
      (process_import 1 [c1fileA, c2bad, c1fileB] {} []).stats.errors = 3) ∧
    ingestLoop 1 [(c2bad, []), (c1fileA, [])] { db := {} } =
      ingestLoop 1 [(c1fileA, [])]
        { db := {}, thumbs := []
          stats := { added := 0, skipped := 0, errors := 1 } } := by
  constructor
  · exact (c2_failure_isolation 1 [c1fileA, c2bad, c1fileB] {} []
      { db := {} } c2bad [] [] .ioError {} []).1
  · exact (c2_failure_isolation 1 [] {} [] { db := {} } c2bad []
      [(c1fileA, [])] .ioError {} []).2 rfl

/-! ## Claim C9 -/

/-- Albums after resolution: unchanged when found; extended by the
concurrent rows plus one fresh-slug album on successful creation; extended
by exactly the concurrent rows when the creation hits the uniqueness
constraint (the new row is rolled back, the concurrent ones persist). -/
theorem resolveAlbum_albums (db : DB) (inter : List AlbumRec) (pd : String)
    (o : Nat) :
    (∀ db2 aid, resolveAlbum db inter pd o = .ok (db2, aid) →
      db2.albums = db.albums ∨
      ∃ nw, db2.albums = db.albums ++ inter ++ [nw] ∧
        ((db.albums ++ inter).any (fun x => x.slug == nw.slug)) = false) ∧
    (∀ e db2, resolveAlbum db inter pd o = .error (e, db2) →
      db2.albums = db.albums ++ inter) := by
  constructor
  · intro db2 aid h
    simp only [resolveAlbum] at h
    rcases hf : db.albums.find?
        (fun a => a.slug == slugify (basename pd)) with _ | a <;> rw [hf] at h
    · by_cases hany : ((db.albums ++ inter).any
          (fun a => a.slug == slugify (basename pd))) = true
      · simp [hany] at h
      · simp only [Bool.not_eq_true] at hany
        simp only [hany, Bool.false_eq_true, if_false, Except.ok.injEq,
          Prod.mk.injEq] at h
        obtain ⟨hdb, -⟩ := h
        subst hdb
        right
        exact ⟨_, rfl, hany⟩
    · simp only [Except.ok.injEq, Prod.mk.injEq] at h
      obtain ⟨hdb, -⟩ := h
      subst hdb
      left
      rfl
  · intro e db2 h
    simp only [resolveAlbum] at h
    rcases hf : db.albums.find?
        (fun a => a.slug == slugify (basename pd)) with _ | a <;> rw [hf] at h
    · by_cases hany : ((db.albums ++ inter).any
          (fun a => a.slug == slugify (basename pd))) = true
      · simp only [hany, if_true, Except.error.injEq, Prod.mk.injEq] at h
        obtain ⟨-, hdb⟩ := h
        subst hdb
        rfl
      · simp only [Bool.not_eq_true] at hany
        simp [hany] at h
    · simp at h

/-- Albums after one file: unchanged, extended by a successful creation, or
extended by exactly the concurrent rows after a constraint violation. -/
theorem ingestFile_albums (o : Nat) (db : DB) (th : List (List Nat))
    (f : FileEntry) (inter : List AlbumRec) :
    (∀ db2 th2 b, ingestFile o db th f inter = .ok (db2, th2, b) →
      db2.albums = db.albums ∨
      ∃ nw, db2.albums = db.albums ++ inter ++ [nw] ∧
        ((db.albums ++ inter).any (fun x => x.slug == nw.slug)) = false) ∧
    (∀ e db2 th2, ingestFile o db th f inter = .error (e, db2, th2) →
      db2.albums = db.albums ∨ db2.albums = db.albums ++ inter) := by
  constructor
  · intro db2 th2 b h
    rcases hc : f.content with _ | c
    · simp [ingestFile, hc] at h
    · simp only [ingestFile, hc] at h
      rcases hfi : db.images.find?
          (fun img => img.file_hash == calculate_file_hash c) with _ | x <;>
        rw [hfi] at h
      · rcases hr : resolveAlbum db inter (dirname f.path) o with
          ⟨e2, dbE⟩ | ⟨dbA, aid⟩ <;> rw [hr] at h
        · simp at h
        · simp only [Except.ok.injEq, Prod.mk.injEq] at h
          obtain ⟨hdb, -⟩ := h
          subst hdb
          exact (resolveAlbum_albums db inter (dirname f.path) o).1 dbA aid hr
      · simp only [Except.ok.injEq, Prod.mk.injEq] at h
        obtain ⟨hdb, -⟩ := h
        subst hdb
        left
        rfl
  · intro e db2 th2 h
    rcases hc : f.content with _ | c
    · simp only [ingestFile, hc, Except.error.injEq, Prod.mk.injEq] at h
      obtain ⟨-, hdb, -⟩ := h
      subst hdb
      left
      rfl
    · simp only [ingestFile, hc] at h
      rcases hfi : db.images.find?
          (fun img => img.file_hash == calculate_file_hash c) with _ | x <;>
        rw [hfi] at h
      · rcases hr : resolveAlbum db inter (dirname f.path) o with
          ⟨e2, dbE⟩ | ⟨dbA, aid⟩ <;> rw [hr] at h
        · simp only [Except.error.injEq, Prod.mk.injEq] at h
          obtain ⟨-, hdb, -⟩ := h
          subst hdb
          right
          exact (resolveAlbum_albums db inter (dirname f.path) o).2 e2 dbE hr
        · simp at h
      · simp at h

/-- A slug-uniqueness violation during album creation: the per-file handler
counts the file as an error, the image is not persisted, and the concurrent
rows remain. -/
theorem ingestFile_slug_conflict (o : Nat) (db : DB) (th : List (List Nat))
    (f : FileEntry) (inter : List AlbumRec) (c : List Nat) (a : AlbumRec)
    (hc : f.content = some c)
    (hn : db.images.find?
      (fun img => img.file_hash == calculate_file_hash c) = none)
    (hnone : db.albums.find?
      (fun x => x.slug == slugify (basename (dirname f.path))) = none)
    (hcon : a ∈ inter)
    (hslug : a.slug = slugify (basename (dirname f.path))) :
    ∃ th2, ingestFile o db th f inter =
      .error (.uniqueViolation, { db with albums := db.albums ++ inter }, th2) := by
  have hany : ((db.albums ++ inter).any
      (fun x => x.slug == slugify (basename (dirname f.path)))) = true := by
    rw [List.any_eq_true]
    exact ⟨a, List.mem_append_right _ hcon, by simp [hslug]⟩
  have hres : resolveAlbum db inter (dirname f.path) o =
      .error (.uniqueViolation, { db with albums := db.albums ++ inter }) := by
    simp only [resolveAlbum, hnone, hany, if_true]
  simp only [ingestFile, hc, hn, hres]
  exact ⟨_, rfl⟩

/-- Claim C9, amended: there is no re-check or fallback after a failed
album creation -- when a concurrent actor committed an album with the same
slug between the lookup and the commit, the per-file exception handler
counts the file as an error, the image is not ingested, and the concurrent
rows remain; independently, the loop iteration can never leave two albums
sharing a slug when the store plus the concurrent rows had none. -/
theorem c9_slug_race (o : Nat) (st : IngestState) (f : FileEntry)
    (inter : List AlbumRec) (c : List Nat) (a : AlbumRec)
    (hc : f.content = some c)
    (hfresh : countHash st.db (calculate_file_hash c) = 0)
    (hnone : st.db.albums.find?
      (fun x => x.slug == slugify (basename (dirname f.path))) = none)
    (hcon : a ∈ inter)
    (hslug : a.slug = slugify (basename (dirname f.path))) :
    ((ingestStep o st f inter).stats =
      { st.stats with errors := st.stats.errors + 1 } ∧
     (ingestStep o st f inter).db.images = st.db.images ∧
     (ingestStep o st f inter).db.albums = st.db.albums ++ inter) ∧
    (∀ (st2 : IngestState) (f2 : FileEntry) (inter2 : List AlbumRec),
      ((st2.db.albums ++ inter2).map (fun x => x.slug)).Nodup →
      (((ingestStep o st2 f2 inter2).db).albums.map
        (fun x => x.slug)).Nodup) := by
  constructor
  · obtain ⟨th2, hrun⟩ := ingestFile_slug_conflict o st.db st.thumbs f inter c a
      hc ((countHash_eq_zero_iff st.db _).mp hfresh) hnone hcon hslug
    refine ⟨?_, ?_, ?_⟩ <;> simp [ingestStep, hrun]
  · intro st2 f2 inter2 hnd
    have hbase : (st2.db.albums.map (fun x => x.slug)).Nodup :=
      hnd.sublist ((List.sublist_append_left _ _).map _)
    unfold ingestStep
    rcases hr : ingestFile o st2.db st2.thumbs f2 inter2 with x | x
    · rcases x with ⟨e, db2, th2⟩
      rcases (ingestFile_albums o st2.db st2.thumbs f2 inter2).2 e db2 th2 hr with
        halb | halb <;> simp only [halb]
      · exact hbase
      · exact hnd
    · rcases x with ⟨db2, th2, b⟩
      have hgoal : (List.map (fun x => x.slug) db2.albums).Nodup := by
        rcases (ingestFile_albums o st2.db st2.thumbs f2 inter2).1 db2 th2 b hr
          with halb | ⟨nw, halb, hany⟩ <;> rw [halb]
        · exact hbase
        · rw [List.map_append, List.nodup_append]
          refine ⟨hnd, List.nodup_singleton _, ?_⟩
          rw [List.any_eq_false] at hany
          intro s hs hs2
          rw [List.map_singleton, List.mem_singleton] at hs2
          obtain ⟨y, hy, hys⟩ := List.mem_map.mp hs
          exact hany y hy (by simp [hys, hs2])
      rcases b with _ | _ <;> exact hgoal

/-- The album a concurrent actor commits in the race window. -/
def c9album : AlbumRec :=
  { id := 99, name := "race", slug := "race"
    root_path := "other/race", owner_id := 2 }

/-- Claim C9, counterexample: with an album of slug race committed
concurrently between the lookup and the commit, ingesting
root/race/a.jpg into an empty store ends with the file counted as an
error and no image row -- the code does not re-check and fall back, the
file is not ingested. -/
theorem c9_counterexample :
    (ingestStep 1 { db := {} } c1fileA [c9album]).stats =
      { added := 0, skipped := 0, errors := 1 } ∧
    (ingestStep 1 { db := {} } c1fileA [c9album]).db.images = [] ∧
    (ingestStep 1 { db := {} } c1fileA [c9album]).db.albums = [c9album] := by
  decide

/-- Claim C9 witness for the amended theorem, at the concrete race
scenario of the counterexample. -/
theorem c9_witness :
    ((ingestStep 1 { db := {} } c1fileA [c9album]).stats =
      { added := 0, skipped := 0, errors := 1 } ∧
     (ingestStep 1 { db := {} } c1fileA [c9album]).db.images = [] ∧
     (ingestStep 1 { db := {} } c1fileA [c9album]).db.albums = [c9album]) ∧
    (((([] : List AlbumRec) ++ [c9album]).map (fun x => x.slug)).Nodup →
      (((ingestStep 1 { db := {} } c1fileA [c9album]).db).albums.map
        (fun x => x.slug)).Nodup) := by
  have h := c9_slug_race 1 { db := {} } c1fileA [c9album] [7, 7] c9album
    rfl (by decide) rfl (by decide) (by decide)
  refine ⟨⟨h.1.1, h.1.2.1, ?_⟩, fun hnd => h.2 { db := {} } c1fileA [c9album] hnd⟩
  rw [h.1.2.2]
  rfl

/-! ## Claims C3 and C6 -/

/-- Persisting a candidate cannot disturb a pair that already has a link:
its duplicate guard consults exactly that pair before creating. -/
theorem persistCandidate_pairLinks (db : DB) (imgId : Nat) (c : Candidate)
    (i t : Nat) (h : pairLinks db i t ≠ []) :
    pairLinks (persistCandidate db imgId c) i t = pairLinks db i t := by
  rcases persistCandidate_links_cases db imgId c with hsame | ⟨tid, heq, hnone⟩
  · unfold pairLinks
    rw [hsame]
  · unfold pairLinks
    rw [heq, List.filter_append]
    by_cases hpc : (imgId == i && tid == t) = true
    · exfalso
      simp only [Bool.and_eq_true, beq_iff_eq] at hpc
      obtain ⟨rfl, rfl⟩ := hpc
      apply h
      unfold pairLinks
      rw [List.filter_eq_nil_iff]
      exact List.find?_eq_none.mp hnone
    · simp [List.filter_cons, hpc]

/-- Persisting a candidate for one image never adds links of another. -/
theorem persistCandidate_linksOfImage_ne (db : DB) (imgId : Nat)
    (c : Candidate) (i : Nat) (hne : imgId ≠ i) :
    linksOfImage (persistCandidate db imgId c) i = linksOfImage db i := by
  rcases persistCandidate_links_cases db imgId c with hsame | ⟨tid, heq, -⟩
  · unfold linksOfImage
    rw [hsame]
  · unfold linksOfImage
    rw [heq, List.filter_append]
    have hpc : ((imgId : Nat) == i) = false := by
      simp [hne]
    simp [List.filter_cons, hpc]

/-- One batch entry cannot disturb a pair that already has a link. -/
theorem saveOneImage_pairLinks (db : DB)
    (item : (Nat × String) × List Candidate) (i t : Nat)
    (h : pairLinks db i t ≠ []) :
    pairLinks (saveOneImage db item) i t = pairLinks db i t := by
  simp only [saveOneImage]
  rcases hfi : db.images.find? (fun x => x.id == item.1.1) with _ | img
  · rw [hfi]
  · rcases hc : item.2 with _ | ⟨c0, cs⟩
    · rw [hfi]
      rfl
    · have hfold : ∀ (cl : List Candidate) (d : DB),
          pairLinks d i t = pairLinks db i t →
          pairLinks (cl.foldl (fun d c => persistCandidate d item.1.1 c) d) i t =
            pairLinks db i t := by
        intro cl
        induction cl with
        | nil => exact fun d hd => hd
        | cons c1 ccl ih =>
          intro d hd
          rw [List.foldl_cons]
          exact ih _ (by rw [persistCandidate_pairLinks _ _ _ _ _
            (by rw [hd]; exact h), hd])
      rw [hfi]
      exact hfold (c0 :: cs) db rfl

/-- One batch entry for another image never disturbs the links of this
image. -/
theorem saveOneImage_linksOfImage_ne (db : DB)
    (item : (Nat × String) × List Candidate) (i : Nat)
    (hne : item.1.1 ≠ i) :
    linksOfImage (saveOneImage db item) i = linksOfImage db i := by
  simp only [saveOneImage]
  rcases hfi : db.images.find? (fun x => x.id == item.1.1) with _ | img
  · rw [hfi]
  · rcases hc : item.2 with _ | ⟨c0, cs⟩
    · rw [hfi]
      rfl
    · have hfold : ∀ (cl : List Candidate) (d : DB),
          linksOfImage d i = linksOfImage db i →
          linksOfImage (cl.foldl (fun d c => persistCandidate d item.1.1 c) d) i =
            linksOfImage db i := by
        intro cl
        induction cl with
        | nil => exact fun d hd => hd
        | cons c1 ccl ih =>
          intro d hd
          rw [List.foldl_cons]
          exact ih _ (by rw [persistCandidate_linksOfImage_ne _ _ _ _ hne, hd])
      rw [hfi]
      exact hfold (c0 :: cs) db rfl

/-- A batch entry with no candidates only flips the processed flag: the
links of its image are untouched. -/
theorem saveOneImage_links_of_nil (db : DB) (pr : Nat × String) (i : Nat) :
    linksOfImage (saveOneImage db (pr, [])) i = linksOfImage db i := by
  simp only [saveOneImage]
  rcases hfi : db.images.find? (fun x => x.id == (pr, ([] : List Candidate)).1.1)
    with _ | img
  · rw [hfi]
  · rw [hfi]
    rfl

/-- Claim C3: the persist phase is idempotent for existing TagLinks --
whatever the analyzers return, a (image, tag) pair that enters the run with
exactly one link leaves it with exactly that link: same confidence, source
and verified flag, and no duplicate. -/
theorem c3_worker_link_idempotent
    (analyze : List String → Except Unit (List (List Candidate)))
    (db : DB) (i t : Nat) (l : TagLinkRec)
    (h : pairLinks db i t = [l]) :
    pairLinks (run_ai_processing_task analyze db) i t = [l] := by
  have hsave : ∀ (items : List ((Nat × String) × List Candidate)) (d : DB),
      pairLinks d i t = [l] →
      pairLinks (save_batch_results d items) i t = [l] := by
    intro items
    induction items with
    | nil => exact fun d hd => hd
    | cons it rest ih =>
      intro d hd
      rw [save_batch_results, List.foldl_cons]
      exact ih _ (by rw [saveOneImage_pairLinks _ _ _ _ (by rw [hd]; simp), hd])
  simp only [run_ai_processing_task]
  refine foldl_inv_mem (fun d => pairLinks d i t = [l]) _ _
    (fun d batch hmem hd => ?_) db h
  rcases ha : analyze (batch.map (fun b => b.2)) with e | rs
  · simpa [ha] using hd
  · by_cases hlen : (rs.length == batch.length) = true
    · simp only [ha, hlen, if_true]
      exact hsave _ _ hd
    · simp only [Bool.not_eq_true] at hlen
      simpa [ha, hlen] using hd

/-- The one pre-existing link of the idempotence witness. -/
def c3link : TagLinkRec :=
  { image_id := 1, tag_id := 1, confidence := mkRat 7 10, source := "ai_clip" }

/-- Store for the idempotence witness: one unprocessed image already
linked to the tag car. -/
def c3db : DB :=
  { images := [{ id := 1, album_id := 1, path := "root/race/a.jpg" }]
    tags := [{ id := 1, name := "car", category := "auto_classified" }]
    links := [c3link]
    nextImageId := 2
    nextTagId := 2 }

/-- Claim C3 witness: rerunning the worker with a classifier that proposes
car again for every image leaves the existing link untouched. -/
theorem c3_witness :
    pairLinks (run_ai_processing_task
      (fun ps => Except.ok (ps.map (fun _ =>
        [{ name := "car", confidence := mkRat 9 10, source := "ai_clip"
           category := "auto_classified" }]))) c3db) 1 1 = [c3link] :=
  c3_worker_link_idempotent _ c3db 1 1 c3link (by decide)

/-- Candidate persistence inside a batch never touches the images table,
through a whole candidate list. -/
theorem fold_persist_images (cl : List Candidate) (j : Nat) :
    ∀ (d : DB),
      (cl.foldl (fun d c => persistCandidate d j c) d).images = d.images := by
  induction cl with
  | nil => intro d; rfl
  | cons c1 ccl ih =>
    intro d
    rw [List.foldl_cons, ih, persistCandidate_images]

/-- The per-row update of setProcessed keeps the id. -/
theorem setProcessed_map_id (j : Nat) (im : ImageRec) :
    ((fun i => if i.id == j then { i with is_processed := true } else i) im).id
      = im.id := by
  by_cases hb : (im.id == j) = true <;> simp [hb]

/-- The per-row update of setProcessed keeps a true processed flag true. -/
theorem setProcessed_map_processed (j : Nat) (im : ImageRec)
    (hp : im.is_processed = true) :
    ((fun i => if i.id == j then { i with is_processed := true } else i)
      im).is_processed = true := by
  by_cases hb : (im.id == j) = true <;> simp [hb, hp]

/-- The per-row update of setProcessed marks the requested id processed. -/
theorem setProcessed_map_processed_of_id (j : Nat) (im : ImageRec)
    (hid : im.id = j) :
    ((fun i => if i.id == j then { i with is_processed := true } else i)
      im).is_processed = true := by
  simp [hid]

/-- The processed-flag update marks the requested image processed. -/
theorem setProcessed_exists_processed (db : DB) (j : Nat)
    (h : ∃ im ∈ db.images, im.id = j) :
    ∃ im ∈ (setProcessed db j).images, im.id = j ∧ im.is_processed = true := by
  obtain ⟨im, hm, hid⟩ := h
  exact ⟨_, List.mem_map_of_mem _ hm, (setProcessed_map_id j im).trans hid,
    setProcessed_map_processed_of_id j im hid⟩

/-- The processed-flag update never unmarks an already processed image. -/
theorem setProcessed_preserves_processed (db : DB) (j k : Nat)
    (h : ∃ im ∈ db.images, im.id = k ∧ im.is_processed = true) :
    ∃ im ∈ (setProcessed db j).images, im.id = k ∧ im.is_processed = true := by
  obtain ⟨im, hm, hid, hp⟩ := h
  exact ⟨_, List.mem_map_of_mem _ hm, (setProcessed_map_id j im).trans hid,
    setProcessed_map_processed j im hp⟩

/-- The processed-flag update preserves which ids exist. -/
theorem setProcessed_preserves_id (db : DB) (j k : Nat)
    (h : ∃ im ∈ db.images, im.id = k) :
    ∃ im ∈ (setProcessed db j).images, im.id = k := by
  obtain ⟨im, hm, hid⟩ := h
  exact ⟨_, List.mem_map_of_mem _ hm, (setProcessed_map_id j im).trans hid⟩

/-- One batch entry preserves which image ids exist. -/
theorem saveOneImage_preserves_id (db : DB)
    (item : (Nat × String) × List Candidate) (k : Nat)
    (h : ∃ im ∈ db.images, im.id = k) :
    ∃ im ∈ (saveOneImage db item).images, im.id = k := by
  simp only [saveOneImage]
  rcases hfi : db.images.find? (fun x => x.id == item.1.1) with _ | img
  · rw [hfi]
    exact h
  · rw [hfi]
    rcases hc : item.2 with _ | ⟨c0, cs⟩
    · exact setProcessed_preserves_id db item.1.1 k h
    · have hfim := fold_persist_images (c0 :: cs) item.1.1 db
      have h2 := h
      rw [← hfim] at h2
      exact setProcessed_preserves_id _ item.1.1 k h2

/-- One batch entry never unmarks a processed image. -/
theorem saveOneImage_preserves_processed (db : DB)
    (item : (Nat × String) × List Candidate) (k : Nat)
    (h : ∃ im ∈ db.images, im.id = k ∧ im.is_processed = true) :
    ∃ im ∈ (saveOneImage db item).images, im.id = k ∧ im.is_processed = true := by
  simp only [saveOneImage]
  rcases hfi : db.images.find? (fun x => x.id == item.1.1) with _ | img
  · rw [hfi]
    exact h
  · rw [hfi]
    rcases hc : item.2 with _ | ⟨c0, cs⟩
    · exact setProcessed_preserves_processed db item.1.1 k h
    · have hfim := fold_persist_images (c0 :: cs) item.1.1 db
      have h2 := h
      rw [← hfim] at h2
      exact setProcessed_preserves_processed _ item.1.1 k h2

/-- Handling the batch entry of an image marks it processed, whether or not
it brought any candidates. -/
theorem saveOneImage_establishes (db : DB)
    (item : (Nat × String) × List Candidate)
    (h : ∃ im ∈ db.images, im.id = item.1.1) :
    ∃ im ∈ (saveOneImage db item).images,
      im.id = item.1.1 ∧ im.is_processed = true := by
  simp only [saveOneImage]
  have hfi : (db.images.find? (fun x => x.id == item.1.1)).isSome := by
    rw [List.find?_isSome]
    obtain ⟨im, hm, hid⟩ := h
    exact ⟨im, hm, by simp [hid]⟩
  obtain ⟨img, hfind⟩ := Option.isSome_iff_exists.mp hfi
  rw [hfind]
  rcases hc : item.2 with _ | ⟨c0, cs⟩
  · exact setProcessed_exists_processed db item.1.1 h
  · have hfim := fold_persist_images (c0 :: cs) item.1.1 db
    have h2 := h
    rw [← hfim] at h2
    exact setProcessed_exists_processed _ item.1.1 h2

/-- Claim C6: for every image whose batch entry the persist phase handles,
the image ends with processed = true -- also with zero candidates, in which
case its links are exactly what they were before the batch. -/
theorem c6_processed_unconditional (db : DB)
    (items : List ((Nat × String) × List Candidate))
    (imgId : Nat) (pth : String) (cands : List Candidate)
    (hmem : ((imgId, pth), cands) ∈ items)
    (hnd : (items.map (fun it => it.1.1)).Nodup)
    (himg : ∃ img ∈ db.images, img.id = imgId) :
    (∃ img ∈ (save_batch_results db items).images,
        img.id = imgId ∧ img.is_processed = true) ∧
    (cands = [] →
      linksOfImage (save_batch_results db items) imgId =
        linksOfImage db imgId) := by
  induction items generalizing db with
  | nil => exact absurd hmem (List.not_mem_nil _)
  | cons it rest ih =>
    rw [List.map_cons, List.nodup_cons] at hnd
    obtain ⟨hhd, htl⟩ := hnd
    simp only [save_batch_results, List.foldl_cons]
    rcases List.mem_cons.mp hmem with heq | hrest
    · have hit : it = ((imgId, pth), cands) := heq.symm
      subst hit
      constructor
      · exact foldl_inv_mem
          (fun d => ∃ im ∈ d.images, im.id = imgId ∧ im.is_processed = true)
          saveOneImage rest
          (fun d a _ hd => saveOneImage_preserves_processed d a imgId hd)
          _ (saveOneImage_establishes db ((imgId, pth), cands) himg)
      · intro hnil
        subst hnil
        have h1 : linksOfImage (saveOneImage db ((imgId, pth), [])) imgId =
            linksOfImage db imgId :=
          saveOneImage_links_of_nil db (imgId, pth) imgId
        refine foldl_inv_mem
          (fun d => linksOfImage d imgId = linksOfImage db imgId)
          saveOneImage rest (fun d a ha hd => ?_) _ h1
        have hne : a.1.1 ≠ imgId := by
          intro he
          have hin : a.1.1 ∈ List.map (fun it => it.1.1) rest :=
            List.mem_map_of_mem _ ha
          rw [he] at hin
          exact hhd hin
        show linksOfImage (saveOneImage d a) imgId = linksOfImage db imgId
        rw [saveOneImage_linksOfImage_ne d a imgId hne, hd]
    · have hne : it.1.1 ≠ imgId := by
        intro he
        apply hhd
        rw [he]
        exact List.mem_map_of_mem _ hrest
      have hres := ih (saveOneImage db it) hrest htl
        (saveOneImage_preserves_id db it imgId himg)
      refine ⟨hres.1, fun hnil => ?_⟩
      show linksOfImage (save_batch_results (saveOneImage db it) rest) imgId =
        linksOfImage db imgId
      rw [hres.2 hnil, saveOneImage_linksOfImage_ne db it imgId hne]

/-- Classifier candidate used by the batch witness. -/
def c6cand : Candidate :=
  { name := "car", confidence := mkRat 9 10, source := "ai_clip"
    category := "auto_classified" }

/-- Store for the batch witness: two unprocessed images, no links. -/
def c6db : DB :=
  { images := [{ id := 1, album_id := 1, path := "p1" },
               { id := 2, album_id := 1, path := "p2" }]
    nextImageId := 3 }

/-- Claim C6 witness: in a batch where image 1 got one candidate and image
2 got none, image 2 ends processed with its (empty) link set unchanged. -/
theorem c6_witness :
    (∃ img ∈ (save_batch_results c6db
        [((1, "p1"), [c6cand]), ((2, "p2"), [])]).images,
      img.id = 2 ∧ img.is_processed = true) ∧
    (([] : List Candidate) = [] →
      linksOfImage (save_batch_results c6db
        [((1, "p1"), [c6cand]), ((2, "p2"), [])]) 2 =
        linksOfImage c6db 2) :=
  c6_processed_unconditional c6db
    [((1, "p1"), [c6cand]), ((2, "p2"), [])] 2 "p2" []
    (by decide) (by decide)
    ⟨{ id := 2, album_id := 1, path := "p2" }, by decide, rfl⟩
